import Mathlib

/-!
Verification development for the le-mistral chat relay:
the server-side model resolver / upstream dispatcher (api/chat.ts)
and the client-side stream framer (src/lib/chatApi.ts).

Text is modelled as `List Nat` (Unicode code points); JavaScript values
reachable from `JSON.parse` are modelled by the inductive `JVal`.
-/

namespace LeMistral

/-- Text: a JavaScript string, as a list of Unicode code points. -/
abbrev Txt := List Nat

/-- Code points of a Lean string literal (helper for concrete inputs). -/
def s2n (s : String) : Txt := s.data.map Char.toNat

/-- JavaScript values produced by `JSON.parse`, plus `undefined`
(the result of reading an absent property). -/
inductive JVal where
  | undefVal : JVal
  | jnull : JVal
  | jbool : Bool → JVal
  | jnum : Txt → JVal        -- the numeric lexeme as parsed
  | jstr : Txt → JVal
  | jarr : List JVal → JVal
  | jobj : List (Txt × JVal) → JVal

/-- JavaScript strict equality `v === "s"` between a value and a string
literal: true exactly when `v` is that string. -/
def strEq (v : JVal) (s : Txt) : Bool :=
  match v with
  | .jstr t => t = s
  | _ => false

/-- Property read `v[k]`: association-list lookup on objects (keys are
unique, see `insertMember`); anything else yields `undefined`. -/
def getF : JVal → Txt → JVal
  | .jobj fields, k => (fields.lookup k).getD .undefVal
  | _, _ => .undefVal

/-- Whether the mantissa of a numeric lexeme is non-zero. -/
def numTruthy (raw : Txt) : Bool :=
  (raw.takeWhile (fun c => c ≠ 101 ∧ c ≠ 69)).any (fun c => 49 ≤ c ∧ c ≤ 57)

/-- JavaScript truthiness. -/
def truthy : JVal → Bool
  | .undefVal => false
  | .jnull => false
  | .jbool b => b
  | .jnum raw => numTruthy raw
  | .jstr s => s ≠ []
  | .jarr _ => true
  | .jobj _ => true

/-- `String(v)`: JavaScript string coercion (arrays join with commas,
`null`/`undefined` elements become empty, objects print as
`[object Object]`). -/
def toJsString : JVal → Txt
  | .undefVal => s2n "undefined"
  | .jnull => s2n "null"
  | .jbool true => s2n "true"
  | .jbool false => s2n "false"
  | .jnum raw => raw
  | .jstr s => s
  | .jobj _ => s2n "[object Object]"
  | .jarr [] => []
  | .jarr [x] =>
    match x with
    | .jnull => []
    | .undefVal => []
    | v => toJsString v
  | .jarr (x :: y :: rest) =>
    (match x with
     | .jnull => []
     | .undefVal => []
     | v => toJsString v) ++ [44] ++ toJsString (.jarr (y :: rest))

/-- Hexadecimal digit (lower case) for a value below 16. -/
def hexDigit (n : Nat) : Nat := if n < 10 then 48 + n else 87 + n

/-- JSON string escaping, as used by `JSON.stringify`. -/
def escJson : Txt → Txt
  | [] => []
  | c :: rest =>
    (if c = 34 then [92, 34]
     else if c = 92 then [92, 92]
     else if c = 8 then [92, 98]
     else if c = 9 then [92, 116]
     else if c = 10 then [92, 110]
     else if c = 12 then [92, 102]
     else if c = 13 then [92, 114]
     else if c < 32 then [92, 117, 48, 48, hexDigit (c / 16), hexDigit (c % 16)]
     else [c]) ++ escJson rest

/-- `JSON.stringify` on parsed values. -/
def jstringify : JVal → Txt
  | .undefVal => []
  | .jnull => s2n "null"
  | .jbool true => s2n "true"
  | .jbool false => s2n "false"
  | .jnum raw => raw
  | .jstr s => [34] ++ escJson s ++ [34]
  | .jarr [] => [91, 93]
  | .jarr [x] =>
    [91] ++
    (match x with
     | .undefVal => s2n "null"
     | v => jstringify v) ++ [93]
  | .jarr (x :: y :: rest) =>
    [91] ++
    (match x with
     | .undefVal => s2n "null"
     | v => jstringify v) ++ [44] ++ (jstringify (.jarr (y :: rest))).drop 1
  | .jobj [] => [123, 125]
  | .jobj [(k, v)] => [123, 34] ++ escJson k ++ [34, 58] ++ jstringify v ++ [125]
  | .jobj ((k, v) :: f :: rest) =>
    [123, 34] ++ escJson k ++ [34, 58] ++ jstringify v ++ [44] ++
      (jstringify (.jobj (f :: rest))).drop 1

/-! ### A model of `JSON.parse` -/

/-- JSON whitespace. -/
def jsonWs (c : Nat) : Bool := c = 32 ∨ c = 9 ∨ c = 10 ∨ c = 13

/-- Drop leading JSON whitespace. -/
def skipWs (s : Txt) : Txt := s.dropWhile jsonWs

/-- ASCII decimal digit. -/
def isDigit (c : Nat) : Bool := 48 ≤ c ∧ c ≤ 57

/-- Insert an object member, overwriting an existing key in place
(JavaScript duplicate-key semantics). -/
def insertMember (fields : List (Txt × JVal)) (k : Txt) (v : JVal) : List (Txt × JVal) :=
  match fields with
  | [] => [(k, v)]
  | (k0, v0) :: rest => if k0 = k then (k0, v) :: rest else (k0, v0) :: insertMember rest k v

/-- Value of a hexadecimal digit. -/
def hexVal (c : Nat) : Option Nat :=
  if 48 ≤ c ∧ c ≤ 57 then some (c - 48)
  else if 97 ≤ c ∧ c ≤ 102 then some (c - 87)
  else if 65 ≤ c ∧ c ≤ 70 then some (c - 55)
  else none

/-- Four hex digits of a `\u` escape. -/
def parseHex4 : Txt → Option (Nat × Txt)
  | a :: b :: c :: d :: rest =>
    match hexVal a, hexVal b, hexVal c, hexVal d with
    | some x, some y, some z, some w => some (((x * 16 + y) * 16 + z) * 16 + w, rest)
    | _, _, _, _ => none
  | _ => none

/-- Single-character JSON escapes. -/
def escChar (e : Nat) : Option Nat :=
  if e = 34 then some 34
  else if e = 92 then some 92
  else if e = 47 then some 47
  else if e = 98 then some 8
  else if e = 102 then some 12
  else if e = 110 then some 10
  else if e = 114 then some 13
  else if e = 116 then some 9
  else none

/-- Body of a JSON string after the opening quote; returns the decoded
text and the remainder after the closing quote. -/
def parseStrBody : Nat → Txt → Option (Txt × Txt)
  | 0, _ => none
  | _, [] => none
  | fuel+1, c :: rest =>
    if c = 34 then some ([], rest)
    else if c = 92 then
      match rest with
      | [] => none
      | e :: rest2 =>
        if e = 117 then
          match parseHex4 rest2 with
          | none => none
          | some (n, rest3) =>
            match parseStrBody fuel rest3 with
            | none => none
            | some (t, r) => some (n :: t, r)
        else
          match escChar e with
          | none => none
          | some ch =>
            match parseStrBody fuel rest2 with
            | none => none
            | some (t, r) => some (ch :: t, r)
    else if c < 32 then none
    else
      match parseStrBody fuel rest with
      | none => none
      | some (t, r) => some (c :: t, r)

/-- Split a run of decimal digits. -/
def digitsSpan (s : Txt) : Txt × Txt := (s.takeWhile isDigit, s.dropWhile isDigit)

/-- Optional exponent part of a numeric lexeme. -/
def parseExpPart (acc : Txt) (s : Txt) : Option (Txt × Txt) :=
  match s with
  | [] => some (acc, s)
  | e :: r =>
    if e = 101 ∨ e = 69 then
      let (sg, r1) := match r with
        | 43 :: r2 => ([43], r2)
        | 45 :: r2 => ([45], r2)
        | _ => (([] : Txt), r)
      match r1 with
      | c :: _ =>
        if isDigit c then
          let (ds, r2) := digitsSpan r1
          some (acc ++ e :: (sg ++ ds), r2)
        else none
      | [] => none
    else some (acc, s)

/-- Optional fraction part, then exponent. -/
def parseFracPart (acc : Txt) (s : Txt) : Option (Txt × Txt) :=
  match s with
  | 46 :: r =>
    (match r with
     | c :: _ =>
       if isDigit c then
         let (ds, r2) := digitsSpan r
         parseExpPart (acc ++ 46 :: ds) r2
       else none
     | [] => none)
  | _ => parseExpPart acc s

/-- Numeric lexeme per the JSON grammar. -/
def parseNumLex (s : Txt) : Option (Txt × Txt) :=
  let (sgn, s1) := match s with
    | 45 :: r => (([45] : Txt), r)
    | _ => (([] : Txt), s)
  match s1 with
  | [] => none
  | c :: r =>
    if c = 48 then parseFracPart (sgn ++ [48]) r
    else if isDigit c then
      let (ds, r2) := digitsSpan r
      parseFracPart (sgn ++ c :: ds) r2
    else none

mutual

/-- Parse one JSON value (leading whitespace allowed). -/
def parseVal : Nat → Txt → Option (JVal × Txt)
  | 0, _ => none
  | fuel+1, s =>
    match skipWs s with
    | [] => none
    | c :: rest =>
      if c = 110 then
        match rest with
        | 117 :: 108 :: 108 :: r => some (.jnull, r)
        | _ => none
      else if c = 116 then
        match rest with
        | 114 :: 117 :: 101 :: r => some (.jbool true, r)
        | _ => none
      else if c = 102 then
        match rest with
        | 97 :: 108 :: 115 :: 101 :: r => some (.jbool false, r)
        | _ => none
      else if c = 34 then
        match parseStrBody (rest.length + 1) rest with
        | some (t, r) => some (.jstr t, r)
        | none => none
      else if c = 91 then parseArr fuel (skipWs rest)
      else if c = 123 then parseObj fuel (skipWs rest)
      else if c = 45 ∨ isDigit c then
        match parseNumLex (c :: rest) with
        | some (lex, r) => some (.jnum lex, r)
        | none => none
      else none

/-- Array tail after `[` (whitespace already skipped). -/
def parseArr : Nat → Txt → Option (JVal × Txt)
  | 0, _ => none
  | fuel+1, s =>
    match s with
    | 93 :: r => some (.jarr [], r)
    | _ =>
      match parseVal fuel s with
      | none => none
      | some (v, r) => parseArrRest fuel [v] r

/-- Remaining array elements. -/
def parseArrRest : Nat → List JVal → Txt → Option (JVal × Txt)
  | 0, _, _ => none
  | fuel+1, acc, s =>
    match skipWs s with
    | 93 :: r => some (.jarr acc, r)
    | 44 :: r =>
      (match parseVal fuel r with
       | none => none
       | some (v, r2) => parseArrRest fuel (acc ++ [v]) r2)
    | _ => none

/-- Object tail after `\x7b` (whitespace already skipped). -/
def parseObj : Nat → Txt → Option (JVal × Txt)
  | 0, _ => none
  | fuel+1, s =>
    match s with
    | 125 :: r => some (.jobj [], r)
    | _ =>
      match parseMember fuel s with
      | none => none
      | some (k, v, r) => parseObjRest fuel [(k, v)] r

/-- One `"key": value` member. -/
def parseMember : Nat → Txt → Option (Txt × JVal × Txt)
  | 0, _ => none
  | fuel+1, s =>
    match skipWs s with
    | 34 :: r =>
      (match parseStrBody (r.length + 1) r with
       | none => none
       | some (k, r2) =>
         match skipWs r2 with
         | 58 :: r3 =>
           (match parseVal fuel r3 with
            | none => none
            | some (v, r4) => some (k, v, r4))
         | _ => none)
    | _ => none

/-- Remaining object members. -/
def parseObjRest : Nat → List (Txt × JVal) → Txt → Option (JVal × Txt)
  | 0, _, _ => none
  | fuel+1, acc, s =>
    match skipWs s with
    | 125 :: r => some (.jobj acc, r)
    | 44 :: r =>
      (match parseMember fuel r with
       | none => none
       | some (k, v, r2) => parseObjRest fuel (insertMember acc k v) r2)
    | _ => none

end

/-- `JSON.parse`: parse a complete JSON text (only trailing whitespace
may remain), or fail. -/
def jparse (s : Txt) : Option JVal :=
  match parseVal (s.length + 1) s with
  | some (v, rest) => if skipWs rest = [] then some v else none
  | none => none

/-! ### Streaming UTF-8 decoding (`TextDecoder("utf-8")` with `stream: true`)

Modelled byte-by-byte after the WHATWG utf-8 decode algorithm with
U+FFFD replacement (non-fatal mode). Undecoded tail bytes persist in the
decoder state across chunks; the source never flushes the decoder at end
of stream, so a trailing incomplete sequence is dropped silently. -/

/-- State of the streaming UTF-8 decoder. -/
structure DecSt where
  cp : Nat
  needed : Nat
  seen : Nat
  lower : Nat
  upper : Nat

/-- Initial decoder state. -/
def decInit : DecSt := ⟨0, 0, 0, 128, 191⟩

/-- Decode one byte in the ground state (no sequence in progress). -/
def decStart (b : Nat) : DecSt × List Nat :=
  if b ≤ 127 then (decInit, [b])
  else if 194 ≤ b ∧ b ≤ 223 then (⟨b % 32, 1, 0, 128, 191⟩, [])
  else if 224 ≤ b ∧ b ≤ 239 then
    (⟨b % 16, 2, 0, if b = 224 then 160 else 128, if b = 237 then 159 else 191⟩, [])
  else if 240 ≤ b ∧ b ≤ 244 then
    (⟨b % 8, 3, 0, if b = 240 then 144 else 128, if b = 244 then 143 else 191⟩, [])
  else (decInit, [65533])

/-- Decode one byte: continuation bytes accumulate into the pending code
point; an invalid continuation emits U+FFFD and reprocesses the byte. -/
def decodeByte (st : DecSt) (b : Nat) : DecSt × List Nat :=
  if st.needed = 0 then decStart b
  else if st.lower ≤ b ∧ b ≤ st.upper then
    let cp2 := st.cp * 64 + b % 64
    if st.seen + 1 = st.needed then (decInit, [cp2])
    else (⟨cp2, st.needed, st.seen + 1, 128, 191⟩, [])
  else
    let (st2, out) := decStart b
    (st2, 65533 :: out)

/-- Decode a chunk of bytes, threading the decoder state. -/
def utf8Decode (st : DecSt) : List Nat → DecSt × Txt
  | [] => (st, [])
  | b :: bs =>
    let (st1, o) := decodeByte st b
    let (st2, os) := utf8Decode st1 bs
    (st2, o ++ os)

/-- UTF-8 encoding of one code point (helper for concrete inputs). -/
def utf8Encode1 (c : Nat) : List Nat :=
  if c ≤ 127 then [c]
  else if c ≤ 2047 then [192 + c / 64, 128 + c % 64]
  else if c ≤ 65535 then [224 + c / 4096, 128 + c / 64 % 64, 128 + c % 64]
  else [240 + c / 262144, 128 + c / 4096 % 64, 128 + c / 64 % 64, 128 + c % 64]

/-- UTF-8 encoding of a text (helper for concrete inputs). -/
def utf8Encode (s : Txt) : List Nat := s.flatMap utf8Encode1

/-! ### Frame splitting (`buffer.split("\n\n")`) -/

/-- Prepend a character to the first part of a split result. -/
def consHead (c : Nat) : List Txt → List Txt
  | [] => [[c]]
  | f :: fs => (c :: f) :: fs

/-- `s.split("\n\n")`: split on non-overlapping, leftmost occurrences of
the double-newline delimiter. Always returns at least one part. -/
def splitFrames : Txt → List Txt
  | [] => [[]]
  | [c] => [[c]]
  | c :: d :: rest =>
    if c = 10 ∧ d = 10 then [] :: splitFrames rest
    else consHead c (splitFrames (d :: rest))

/-- Last part of a split (the retained buffer; `frames.pop() || ""`). -/
def lastPart (parts : List Txt) : Txt := (parts.getLast?).getD []

/-! ### Per-frame token extraction (src/lib/chatApi.ts) -/

/-- JavaScript `String.prototype.trim` whitespace. -/
def jsWs (c : Nat) : Bool :=
  c = 32 ∨ c = 9 ∨ c = 10 ∨ c = 11 ∨ c = 12 ∨ c = 13 ∨ c = 160 ∨ c = 65279

/-- `s.trim()`. -/
def jsTrim (s : Txt) : Txt := (s.dropWhile jsWs).reverse.dropWhile jsWs |>.reverse

/-- `frame.split(/\r?\n/)`. -/
def splitLines : Txt → List Txt
  | [] => [[]]
  | 13 :: 10 :: rest => [] :: splitLines rest
  | 10 :: rest => [] :: splitLines rest
  | c :: rest => consHead c (splitLines rest)

/-- `s.indexOf(pat)`: first index at which `pat` occurs. -/
def subIndex (pat : Txt) : Txt → Option Nat
  | [] => if pat = [] then some 0 else none
  | c :: rest =>
    if pat.isPrefixOf (c :: rest) then some 0
    else (subIndex pat rest).map (· + 1)

/-- `extractDataJsonFromFrame`: find the `data:` line of a frame, strip
the marker, and parse the remainder as JSON ([DONE] and malformed
payloads yield nothing). -/
def extractDataJsonFromFrame (frame : Txt) : Option JVal :=
  let lines := splitLines frame
  match lines.find? (fun l => (s2n "data:").isPrefixOf (jsTrim l)) with
  | none => none
  | some dataLine =>
    let idx := (subIndex (s2n "data:") dataLine).getD 0
    let jsonStr := jsTrim (dataLine.drop (idx + 5))
    if jsonStr = [] then none
    else if jsonStr = s2n "[DONE]" then none
    else jparse jsonStr

/-- `extractTextFromDeltaContent`: plain string, or `\x7btext\x7d` segment
list joined, else empty. -/
def extractTextFromDeltaContent (content : JVal) : Txt :=
  match content with
  | .jstr s => s
  | .jarr chunks =>
    (chunks.map (fun ch =>
      match getF ch (s2n "text") with
      | .jstr t => t
      | _ => [])).flatten
  | _ => []

/-- Observable callback events of the stream read loop (without the
assistant id, which is constant per invocation). -/
inductive OutEv where
  | token : Txt → OutEv
  | done : OutEv
  | errorOut : Txt → OutEv
deriving DecidableEq

/-- `choice?.delta || choice?.message || \x7b\x7d`. -/
def chooseDelta (choice : JVal) : JVal :=
  let d := getF choice (s2n "delta")
  let m := getF choice (s2n "message")
  if truthy d then d else if truthy m then m else .jobj []

/-- Dispatch of one parsed (truthy) frame event: the callbacks fired and
whether processing stops (`return`). -/
def handleEvent (evt : JVal) : List OutEv × Bool :=
  if strEq (getF evt (s2n "type")) (s2n "message.output.delta") then
    let chunk := match getF evt (s2n "content") with
      | .jstr s => s
      | _ => []
    (if chunk ≠ [] then [.token chunk] else [], false)
  else if strEq (getF evt (s2n "type")) (s2n "conversation.response.done") then
    ([.done], false)
  else if truthy (getF evt (s2n "error")) then
    ([.errorOut (toJsString (getF evt (s2n "error")))], true)
  else
    match getF evt (s2n "choices") with
    | .jarr (choice :: _) =>
      let piece := extractTextFromDeltaContent (getF (chooseDelta choice) (s2n "content"))
      (if piece ≠ [] then [.token piece] else [], false)
    | _ => ([], false)

/-- Process one complete frame (`if (!evt) continue` skips null, false,
and other falsy parses). -/
def handleFrame (frame : Txt) : List OutEv × Bool :=
  match extractDataJsonFromFrame frame with
  | none => ([], false)
  | some evt => if truthy evt then handleEvent evt else ([], false)

/-- Process a list of complete frames, stopping early on an error event. -/
def runFrames : List Txt → List OutEv × Bool
  | [] => ([], false)
  | f :: fs =>
    let (o, stop) := handleFrame f
    if stop then (o, true)
    else
      let (os, s) := runFrames fs
      (o ++ os, s)

/-- Read-loop state: decoder state and rolling text buffer. -/
structure FrSt where
  dec : DecSt
  buf : Txt

/-- Initial read-loop state. -/
def frInit : FrSt := ⟨decInit, []⟩

/-- One iteration of the read loop on a byte chunk: decode, append to
the buffer, split off complete frames, process them. -/
def feedBytes (st : FrSt) (bytes : List Nat) : FrSt × (List OutEv × Bool) :=
  let (dec1, text) := utf8Decode st.dec bytes
  let parts := splitFrames (st.buf ++ text)
  (⟨dec1, lastPart parts⟩, runFrames parts.dropLast)

/-- The whole read loop over a chunk sequence (an error event returns
out of the loop; remaining chunks are never processed). -/
def feedAll (st : FrSt) : List (List Nat) → FrSt × (List OutEv × Bool)
  | [] => (st, ([], false))
  | c :: cs =>
    let (st1, (o1, s1)) := feedBytes st c
    if s1 then (st1, (o1, true))
    else
      let (st2, (o2, s2)) := feedAll st1 cs
      (st2, (o1 ++ o2, s2))

/-- Callback events emitted by `streamMistralReply`'s read loop for a
relayed chunk sequence: the per-frame events, then `onDone` when the
stream ends without an error event. -/
def streamOutputs (chunks : List (List Nat)) : List OutEv :=
  let (_, (outs, stop)) := feedAll frInit chunks
  outs ++ (if stop then [] else [.done])

/-- The token deltas among a list of callback events. -/
def tokensOf (evs : List OutEv) : List Txt :=
  evs.filterMap (fun e =>
    match e with
    | .token t => some t
    | _ => none)

/-! ### `streamMistralReply` callback trace (src/lib/chatApi.ts) -/

/-- How the read loop of a successful streaming response ends: the
reader reports done, or `read()` throws an abort / another error. -/
inductive EndK where
  | normal : EndK
  | abortMid : EndK
  | errMid : Bool → Txt → EndK   -- instanceof Error?, its message

/-- Outcome of the `fetch` call and subsequent body handling. -/
inductive FetchRes where
  | fetchAbort : FetchRes                         -- fetch threw AbortError
  | fetchErr : Bool → Txt → FetchRes              -- fetch threw (Error?, message)
  | notOk : Nat → Option Txt → FetchRes           -- non-ok status, res.text() result
  | okNoBody : FetchRes                           -- ok but res.body is null
  | okBody : List (List Nat) → EndK → FetchRes    -- chunks read, then the end

/-- Callback events including the assistant id they receive. -/
inductive CbEv where
  | startEv : Txt → CbEv
  | tokenEv : Txt → Txt → CbEv
  | doneEv : Txt → CbEv
  | errorEv : JVal → Txt → CbEv
  | abortEv : Txt → CbEv

/-- The error payload for a non-ok response:
`errText = j?.error || txt || errText` starting from `API error status`. -/
def notOkPayload (status : Nat) (textRes : Option Txt) : JVal :=
  let dflt : Txt := s2n "API error " ++ s2n (toString status)
  match textRes with
  | none => .jstr dflt
  | some txt =>
    match jparse txt with
    | some j =>
      let e := getF j (s2n "error")
      if truthy e then e else if txt ≠ [] then .jstr txt else .jstr dflt
    | none => if txt ≠ [] then .jstr txt else .jstr dflt

/-- Id-free trace of everything `streamMistralReply` emits after
`onStart`, for a given fetch outcome. -/
def traceCore (f : FetchRes) : List (Sum OutEv (Sum JVal Bool)) :=
  match f with
  | .fetchAbort => [.inr (.inr true)]
  | .fetchErr isErr msg =>
    [.inr (.inl (.jstr (if isErr then msg else s2n "Network error while contacting chat API.")))]
  | .notOk status textRes => [.inr (.inl (notOkPayload status textRes))]
  | .okNoBody => [.inr (.inl (.jstr (s2n "No response body from server.")))]
  | .okBody chunks endK =>
    let (_, (outs, stop)) := feedAll frInit chunks
    (outs.map .inl) ++
      (if stop then []
       else
         match endK with
         | .normal => [.inr (.inr false)]
         | .abortMid => [.inr (.inr true)]
         | .errMid isErr m =>
           [.inr (.inl (.jstr (if isErr then m else s2n "Stream read error")))])

/-- Attach the assistant id to an id-free trace event. -/
def attachId (id : Txt) : Sum OutEv (Sum JVal Bool) → CbEv
  | .inl (.token t) => .tokenEv t id
  | .inl .done => .doneEv id
  | .inl (.errorOut t) => .errorEv (.jstr t) id
  | .inr (.inl p) => .errorEv p id
  | .inr (.inr true) => .abortEv id
  | .inr (.inr false) => .doneEv id

/-- Full callback trace of one `streamMistralReply` invocation:
`onStart` fires first with the assistant id, then every later callback
receives that same id. -/
def streamReplyTrace (id : Txt) (f : FetchRes) : List CbEv :=
  .startEv id :: (traceCore f).map (attachId id)

/-- Whether a callback event is `onStart`. -/
def isStartEv : CbEv → Bool
  | .startEv _ => true
  | _ => false

/-- The assistant id a callback event received. -/
def idOf : CbEv → Txt
  | .startEv i => i
  | .tokenEv _ i => i
  | .doneEv i => i
  | .errorEv _ i => i
  | .abortEv i => i

/-! ### Server side: model resolver and upstream dispatcher (api/chat.ts) -/

/-- The `FAMILY_ALIASES` table. -/
def FAMILY_ALIASES : List (Txt × List Txt) :=
  [ (s2n "mistral-small-latest", [s2n "mistral-small-latest", s2n "mistral-small"]),
    (s2n "mistral-medium-latest", [s2n "mistral-medium-latest", s2n "mistral-medium"]),
    (s2n "mistral-large-latest", [s2n "mistral-large-latest", s2n "mistral-large"]),
    (s2n "codestral-latest", [s2n "codestral-latest", s2n "codestral"]),
    (s2n "pixtral-large-latest", [s2n "pixtral-large-latest", s2n "pixtral-large"]),
    (s2n "magistral-small-latest", [s2n "magistral-small-latest", s2n "magistral-small"]),
    (s2n "magistral-medium-latest", [s2n "magistral-medium-latest", s2n "magistral-medium"]),
    (s2n "magistral-latest",
      [s2n "magistral-medium-latest", s2n "magistral-small-latest",
       s2n "magistral-medium", s2n "magistral-small"]),
    (s2n "devstral-small-latest", [s2n "devstral-small-latest", s2n "devstral-small"]),
    (s2n "devstral-medium-latest", [s2n "devstral-medium-latest", s2n "devstral-medium"]),
    (s2n "devstral-latest",
      [s2n "devstral-medium-latest", s2n "devstral-small-latest",
       s2n "devstral-medium", s2n "devstral-small"]) ]

/-- The `PREFER_CHAT` set. -/
def PREFER_CHAT : List Txt :=
  [ s2n "mistral-small-latest", s2n "mistral-small",
    s2n "mistral-medium-latest", s2n "mistral-medium",
    s2n "mistral-large-latest", s2n "mistral-large",
    s2n "codestral-latest", s2n "codestral",
    s2n "pixtral-large-latest", s2n "pixtral-large",
    s2n "magistral-small-latest", s2n "magistral-small",
    s2n "magistral-medium-latest", s2n "magistral-medium",
    s2n "magistral-latest",
    s2n "devstral-small-latest", s2n "devstral-small",
    s2n "devstral-medium-latest", s2n "devstral-medium",
    s2n "devstral-latest" ]

/-- `FAMILY_ALIASES[model] || [model]`. -/
def familiesFor (model : Txt) : List Txt :=
  ((FAMILY_ALIASES.lookup model).getD [model])

/-- `PREFER_CHAT.has(candidate)` (exact, case-sensitive equality). -/
def preferChat (c : Txt) : Bool := decide (c ∈ PREFER_CHAT)

/-- The two upstream API shapes. -/
inductive Shape where
  | chat : Shape     -- chat/completions ("completions" shape)
  | conv : Shape     -- conversations ("conversation" shape)
deriving DecidableEq

/-- Shape order for one candidate. -/
def shapeOrder (c : Txt) : List Shape :=
  if preferChat c then [.chat, .conv] else [.conv, .chat]

/-- The ordered (candidate, shape) attempt sequence for a model name. -/
def attemptPairs (model : Txt) : List (Txt × Shape) :=
  (familiesFor model).flatMap (fun c => (shapeOrder c).map (fun sh => (c, sh)))

/-- `parseUpstreamError`: extract an `error` field from a JSON error
body (stringified when not a string), else empty. -/
def parseUpstreamError (t : Txt) : Txt :=
  match jparse t with
  | some j =>
    let e := getF j (s2n "error")
    if truthy e then
      match e with
      | .jstr s => s
      | _ => jstringify e
    else []
  | none => []

/-- What one upstream `fetch` produced for an attempt. -/
inductive Upstream where
  | thrown : Txt → Upstream
    -- the computed message: `error instanceof Error ? error.message : String(error)`
  | resp : Nat → Option Txt → Option Txt → Option Nat → Upstream
    -- status, Content-Type header, response.text() result (none = threw), body handle

/-- What `callChatCompletions` / `callConversations` returns, or the
exception that escapes it. -/
inductive CallOutcome where
  | ret : Bool → Bool → Option Nat → Txt → CallOutcome   -- ok, streamable, body, errorText
  | exn : Txt → CallOutcome

/-- `Response.ok`: 2xx status. -/
def respOk (status : Nat) : Bool := 200 ≤ status ∧ status ≤ 299

/-- ASCII lower-casing (`toLowerCase` on header values). -/
def lowerAscii (t : Txt) : Txt := t.map (fun c => if 65 ≤ c ∧ c ≤ 90 then c + 32 else c)

/-- Whether a Content-Type header marks an event stream. -/
def ctStreamable (ct : Option Txt) : Bool :=
  (subIndex (s2n "text/event-stream") (lowerAscii (ct.getD []))).isSome

/-- First non-empty of three candidate error texts (`a || b || c`). -/
def firstNonEmptyTxt (a b c : Txt) : Txt :=
  if a ≠ [] then a else if b ≠ [] then b else c

/-- Default error text for a non-ok upstream status. -/
def dfltStatusErr (sh : Shape) (status : Nat) : Txt :=
  match sh with
  | .chat => s2n "chat/completions upstream error: " ++ s2n (toString status)
  | .conv => s2n "conversations upstream error: " ++ s2n (toString status)

/-- Default error text for a 2xx response that is not an event stream. -/
def dfltNoSseErr (sh : Shape) : Txt :=
  match sh with
  | .chat => s2n "chat/completions did not return SSE"
  | .conv => s2n "conversations did not return SSE"

/-- `callChatCompletions` (shape `.chat`) / `callConversations`
(shape `.conv`) on an upstream outcome. -/
def callShape (sh : Shape) : Upstream → CallOutcome
  | .thrown m => .exn m
  | .resp status ct btxt body =>
    if respOk status = false then
      let t := btxt.getD []
      .ret false false body (firstNonEmptyTxt (parseUpstreamError t) t (dfltStatusErr sh status))
    else if ctStreamable ct = false then
      let t := btxt.getD []
      .ret false false body (firstNonEmptyTxt (parseUpstreamError t) t (dfltNoSseErr sh))
    else .ret true true body []

/-- The dispatcher's final answer: relay of the i-th attempt's body, or
an aggregated JSON error. -/
inductive DispatchResult where
  | relay : Nat → Nat → DispatchResult    -- attempt index (0-based), body handle
  | failure : Txt → DispatchResult
deriving DecidableEq

/-- The attempt loop of `handler` (api/chat.ts lines 526-555): try each
(candidate, shape) pair in order; relay the first ok + streamable
response with a body; otherwise update `lastErrorText` and continue. -/
def dispatchGo (us : Nat → Upstream) : List (Txt × Shape) → Nat → Txt → DispatchResult
  | [], _, last =>
    .failure (if last ≠ [] then last else s2n "Upstream streaming failed for selected model")
  | p :: rest, i, last =>
    match callShape p.2 (us i) with
    | .exn m => dispatchGo us rest (i + 1) m
    | .ret ok streamable body err =>
      match ok, streamable, body with
      | true, true, some b => .relay i b
      | _, _, _ => dispatchGo us rest (i + 1) (if err ≠ [] then err else last)

/-- The handler's model resolution plus attempt loop, with the i-th
issued request answered by `us i`. -/
def dispatch (model : Txt) (us : Nat → Upstream) : DispatchResult :=
  dispatchGo us (attemptPairs model) 0 []

/-- The text recorded into `lastErrorText` by a failed attempt. -/
def recordedText : CallOutcome → Txt
  | .ret _ _ _ e => e
  | .exn m => m

/-- Whether a call outcome wins the loop (ok, streamable, with a body). -/
def isWin : CallOutcome → Bool
  | .ret true true (some _) _ => true
  | _ => false

/-! ### Completions-shape request body construction (api/chat.ts lines 399-404) -/

/-- Whether a caller message survives the filter
`(m) => m && typeof m.content === "string"`. -/
def msgKept (m : JVal) : Bool :=
  truthy m && (match getF m (s2n "content") with
               | .jstr _ => true
               | _ => false)

/-- `chatMessages` before attachment merging: optional synthetic system
message, then the filtered caller messages projected to role/content. -/
def chatMessagesBase (instructions : Txt) (messages : List JVal) : List (JVal × JVal) :=
  (if instructions ≠ [] then [(.jstr (s2n "system"), .jstr instructions)] else [])
  ++ (messages.filter msgKept).map (fun m => (getF m (s2n "role"), getF m (s2n "content")))

/-- Modelled from the spec: the caller's string-content messages, in
their original order, each projected to role/content — the spec-side
description of the list that follows the optional system message. -/
def specStringMsgs (messages : List JVal) : List (JVal × JVal) :=
  messages.filterMap (fun m =>
    if msgKept m then some (getF m (s2n "role"), getF m (s2n "content")) else none)

/-! ### Lemmas: frame splitting composes across chunk boundaries -/

/-- Whether a text contains no double-newline delimiter. -/
def noNl2 : Txt → Bool
  | [] => true
  | [_] => true
  | c :: d :: rest => if c = 10 ∧ d = 10 then false else noNl2 (d :: rest)

theorem splitFrames_delim (rest : Txt) :
    splitFrames (10 :: 10 :: rest) = [] :: splitFrames rest := by
  simp [splitFrames]

theorem splitFrames_nondelim (c d : Nat) (rest : Txt) (h : ¬(c = 10 ∧ d = 10)) :
    splitFrames (c :: d :: rest) = consHead c (splitFrames (d :: rest)) := by
  rw [splitFrames, if_neg h]

theorem lastPart_cons_of_ne_nil (x : Txt) (S : List Txt) (h : S ≠ []) :
    lastPart (x :: S) = lastPart S := by
  cases S with
  | nil => exact absurd rfl h
  | cons y t => rw [lastPart, List.getLast?_cons_cons, ← lastPart]

theorem lastPart_append_of_ne_nil (A B : List Txt) (h : B ≠ []) :
    lastPart (A ++ B) = lastPart B := by
  simp only [lastPart]
  rw [List.getLast?_append]
  cases hl : B.getLast? with
  | none => exact absurd (List.getLast?_eq_none_iff.mp hl) h
  | some z => simp

theorem splitFrames_ne_nil (s : Txt) : splitFrames s ≠ [] := by
  induction s using splitFrames.induct with
  | case1 => simp [splitFrames]
  | case2 c => simp [splitFrames]
  | case3 c d rest h ih =>
    obtain ⟨rfl, rfl⟩ := h
    rw [splitFrames_delim]
    simp
  | case4 c d rest h ih =>
    rw [splitFrames_nondelim c d rest h]
    cases hs : splitFrames (d :: rest) with
    | nil => exact absurd hs ih
    | cons f fs => simp [consHead]

theorem splitFrames_singleton (s : Txt) :
    ∀ f, splitFrames s = [f] → f = s := by
  induction s using splitFrames.induct with
  | case1 => intro f h; simpa [splitFrames] using h.symm
  | case2 c => intro f h; simpa [splitFrames] using h.symm
  | case3 c d rest h ih =>
    obtain ⟨rfl, rfl⟩ := h
    intro f hf
    rw [splitFrames_delim] at hf
    simp only [List.cons.injEq] at hf
    exact absurd hf.2 (splitFrames_ne_nil rest)
  | case4 c d rest h ih =>
    intro f hf
    rw [splitFrames_nondelim c d rest h] at hf
    cases hs : splitFrames (d :: rest) with
    | nil => exact absurd hs (splitFrames_ne_nil _)
    | cons g gs =>
      rw [hs] at hf
      simp only [consHead, List.cons.injEq] at hf
      obtain ⟨h1, h2⟩ := hf
      subst h2
      rw [ih g hs] at h1
      exact h1.symm

theorem splitFrames_nodelim (s : Txt) (h : noNl2 s = true) : splitFrames s = [s] := by
  induction s using splitFrames.induct with
  | case1 => rfl
  | case2 c => rfl
  | case3 c d rest hcd ih =>
    obtain ⟨rfl, rfl⟩ := hcd
    simp [noNl2] at h
  | case4 c d rest hcd ih =>
    rw [noNl2, if_neg hcd] at h
    rw [splitFrames_nondelim c d rest hcd, ih h, consHead]

theorem lastPart_noNl2 (s : Txt) : noNl2 (lastPart (splitFrames s)) = true := by
  induction s using splitFrames.induct with
  | case1 => rfl
  | case2 c => rfl
  | case3 c d rest h ih =>
    obtain ⟨rfl, rfl⟩ := h
    rw [splitFrames_delim, lastPart_cons_of_ne_nil _ _ (splitFrames_ne_nil rest)]
    exact ih
  | case4 c d rest h ih =>
    rw [splitFrames_nondelim c d rest h]
    cases hs : splitFrames (d :: rest) with
    | nil => exact absurd hs (splitFrames_ne_nil _)
    | cons g gs =>
      rw [hs] at ih
      cases gs with
      | nil =>
        have hg : g = d :: rest := splitFrames_singleton _ _ hs
        subst hg
        simp only [consHead, lastPart, List.getLast?_singleton, Option.getD_some] at ih ⊢
        rw [noNl2, if_neg h]
        exact ih
      | cons g2 gs2 =>
        simp only [consHead]
        rw [lastPart_cons_of_ne_nil _ _ (by simp)]
        rwa [lastPart_cons_of_ne_nil _ _ (by simp)] at ih

theorem splitFrames_append (a b : Txt) :
    splitFrames (a ++ b) =
      (splitFrames a).dropLast ++ splitFrames (lastPart (splitFrames a) ++ b) := by
  induction a using splitFrames.induct with
  | case1 => simp [splitFrames, lastPart]
  | case2 c => simp [splitFrames, lastPart]
  | case3 c d rest h ih =>
    obtain ⟨rfl, rfl⟩ := h
    have hne := splitFrames_ne_nil rest
    rw [List.cons_append, List.cons_append, splitFrames_delim, splitFrames_delim, ih,
      List.dropLast_cons_of_ne_nil hne, lastPart_cons_of_ne_nil _ _ hne, List.cons_append]
  | case4 c d rest h ih =>
    rw [List.cons_append, List.cons_append, splitFrames_nondelim c d _ h,
      ← List.cons_append, ih, splitFrames_nondelim c d rest h]
    cases hs : splitFrames (d :: rest) with
    | nil => exact absurd hs (splitFrames_ne_nil _)
    | cons g gs =>
      cases gs with
      | nil =>
        have hg : g = d :: rest := splitFrames_singleton _ _ hs
        subst hg
        simp only [consHead, List.dropLast_single, List.nil_append, lastPart,
          List.getLast?_singleton, Option.getD_some, List.cons_append]
        rw [splitFrames_nondelim c d _ h]
        simp [consHead]
      | cons g2 gs2 =>
        simp only [consHead]
        rw [@List.dropLast_cons_of_ne_nil _ g (g2 :: gs2) (by simp),
          @List.dropLast_cons_of_ne_nil _ (c :: g) (g2 :: gs2) (by simp),
          lastPart_cons_of_ne_nil g (g2 :: gs2) (by simp),
          lastPart_cons_of_ne_nil (c :: g) (g2 :: gs2) (by simp)]
        simp [consHead]

theorem utf8Decode_append (st : DecSt) (a b : List Nat) :
    utf8Decode st (a ++ b) =
      ((utf8Decode (utf8Decode st a).1 b).1,
       (utf8Decode st a).2 ++ (utf8Decode (utf8Decode st a).1 b).2) := by
  induction a generalizing st with
  | nil => simp [utf8Decode]
  | cons x xs ih =>
    simp only [List.cons_append, utf8Decode, List.append_eq]
    rw [ih (decodeByte st x).1]
    simp [List.append_assoc]

theorem runFrames_append (F1 F2 : List Txt) :
    runFrames (F1 ++ F2) =
      (if (runFrames F1).2 then ((runFrames F1).1, true)
       else ((runFrames F1).1 ++ (runFrames F2).1, (runFrames F2).2)) := by
  induction F1 with
  | nil => simp [runFrames]
  | cons f fs ih =>
    simp only [List.cons_append, runFrames, List.append_eq]
    rw [ih]
    cases hf : (handleFrame f).2 with
    | true => simp [hf]
    | false =>
      cases hfs : (runFrames fs).2 with
      | true => simp [hf, hfs]
      | false => simp [hf, hfs, List.append_assoc]

theorem feedBytes_split (st : FrSt) (a b : List Nat) :
    ((feedBytes st (a ++ b)).2 =
      (if (feedBytes st a).2.2 then ((feedBytes st a).2.1, true)
       else ((feedBytes st a).2.1 ++ (feedBytes (feedBytes st a).1 b).2.1,
             (feedBytes (feedBytes st a).1 b).2.2)))
    ∧ ((feedBytes st a).2.2 = false →
        (feedBytes st (a ++ b)).1 = (feedBytes (feedBytes st a).1 b).1) := by
  simp only [feedBytes, utf8Decode_append]
  rw [← List.append_assoc, splitFrames_append (st.buf ++ (utf8Decode st.dec a).2)]
  rw [List.dropLast_append_of_ne_nil _ (splitFrames_ne_nil _),
    runFrames_append]
  constructor
  · cases hstop : (runFrames (splitFrames (st.buf ++ (utf8Decode st.dec a).2)).dropLast).2 with
    | true => simp [hstop]
    | false => simp [hstop]
  · intro _
    rw [lastPart_append_of_ne_nil _ _ (splitFrames_ne_nil _)]

theorem feedAll_join (cs : List (List Nat)) :
    ∀ st : FrSt, noNl2 st.buf = true →
      ((feedAll st cs).2 = (feedBytes st cs.flatten).2 ∧
       ((feedAll st cs).2.2 = false → (feedAll st cs).1 = (feedBytes st cs.flatten).1)) := by
  induction cs with
  | nil =>
    intro st hbuf
    have hb : splitFrames st.buf = [st.buf] := splitFrames_nodelim st.buf hbuf
    have he : feedBytes st [] = (st, ([], false)) := by
      simp [feedBytes, utf8Decode, hb, runFrames, lastPart]
    exact ⟨by simp [feedAll, he], fun _ => by simp [feedAll, he]⟩
  | cons c cs ih =>
    intro st hbuf
    have hsplit := feedBytes_split st c cs.flatten
    have hinv : noNl2 (feedBytes st c).1.buf = true := by
      simp only [feedBytes]
      exact lastPart_noNl2 _
    have ihc := ih (feedBytes st c).1 hinv
    constructor
    · show (feedAll st (c :: cs)).2 = (feedBytes st (c ++ cs.flatten)).2
      rw [hsplit.1]
      simp only [feedAll]
      cases hstop : (feedBytes st c).2.2 with
      | true => simp [hstop]
      | false =>
        simp only [hstop, if_false, Bool.false_eq_true]
        simp only [ihc.1]
    · intro hs2
      show (feedAll st (c :: cs)).1 = (feedBytes st (c ++ cs.flatten)).1
      have hstop : (feedBytes st c).2.2 = false := by
        cases hb : (feedBytes st c).2.2 with
        | false => rfl
        | true =>
          exfalso
          have htrue : (feedAll st (c :: cs)).2.2 = true := by simp [feedAll, hb]
          rw [hs2] at htrue
          exact absurd htrue (by decide)
      rw [hsplit.2 hstop]
      have h1 : (feedAll st (c :: cs)).1 = (feedAll (feedBytes st c).1 cs).1 := by
        simp [feedAll, hstop]
      rw [h1]
      apply ihc.2
      have h2 : (feedAll st (c :: cs)).2.2 = (feedAll (feedBytes st c).1 cs).2.2 := by
        simp [feedAll, hstop]
      rw [← h2]
      exact hs2

/-! ### Claim theorems -/

/-- C4: chunking-invariance of the Stream Framer — for every byte
sequence and every partition of it into chunks (including splits inside
a multi-byte UTF-8 character and inside the frame delimiter), feeding
the chunks produces the same callback sequence, and in particular the
same token-delta sequence, as feeding the whole sequence as one chunk. -/
theorem claim_C4 (chunks : List (List Nat)) :
    streamOutputs chunks = streamOutputs [chunks.flatten] ∧
    tokensOf (streamOutputs chunks) = tokensOf (streamOutputs [chunks.flatten]) := by
  have hout : ∀ cs : List (List Nat),
      streamOutputs cs =
        (feedAll frInit cs).2.1 ++ (if (feedAll frInit cs).2.2 then [] else [.done]) :=
    fun _ => rfl
  have hmain : streamOutputs chunks = streamOutputs [chunks.flatten] := by
    have ha := (feedAll_join chunks frInit rfl).1
    have hb := (feedAll_join [chunks.flatten] frInit rfl).1
    have hflat : ([chunks.flatten] : List (List Nat)).flatten = chunks.flatten := by simp
    rw [hflat] at hb
    rw [hout chunks, hout [chunks.flatten]]
    simp only [ha, hb]
  exact ⟨hmain, by rw [hmain]⟩

/-- C5: the "-latest" family aliases expand to medium, then small, then
the same two without the "-latest" qualifier. -/
theorem claim_C5 :
    familiesFor (s2n "magistral-latest") =
      [s2n "magistral-medium-latest", s2n "magistral-small-latest",
       s2n "magistral-medium", s2n "magistral-small"] ∧
    familiesFor (s2n "devstral-latest") =
      [s2n "devstral-medium-latest", s2n "devstral-small-latest",
       s2n "devstral-medium", s2n "devstral-small"] :=
  ⟨by decide, by decide⟩

/-- C9: building the completions-shape body keeps exactly the caller
messages whose content is a plain string (all others are silently
dropped), in their original order, after an optional synthetic system
message that is present iff the instructions text is non-empty. -/
theorem claim_C9 (instructions : Txt) (messages : List JVal) :
    chatMessagesBase instructions messages =
      (if instructions ≠ [] then [(JVal.jstr (s2n "system"), JVal.jstr instructions)] else [])
        ++ specStringMsgs messages := by
  unfold chatMessagesBase specStringMsgs
  congr 1
  induction messages with
  | nil => rfl
  | cons m ms ih =>
    cases hk : msgKept m with
    | true => simp [List.filter_cons, List.filterMap_cons, hk, ih]
    | false => simp [List.filter_cons, List.filterMap_cons, hk, ih]

/-- C10: in every invocation of `streamMistralReply` the `onStart`
callback fires exactly once, before any other callback, and every later
callback receives the same assistant id — including when the fetch
throws or returns a non-ok response. -/
theorem claim_C10 (id : Txt) (f : FetchRes) :
    ∃ rest, streamReplyTrace id f = .startEv id :: rest ∧
      (∀ e ∈ rest, isStartEv e = false ∧ idOf e = id) ∧
      (streamReplyTrace id f).countP isStartEv = 1 := by
  refine ⟨(traceCore f).map (attachId id), rfl, ?_, ?_⟩
  · intro e he
    obtain ⟨x, _, rfl⟩ := List.mem_map.mp he
    rcases x with o | p | b
    · cases o <;> simp [attachId, isStartEv, idOf]
    · simp [attachId, isStartEv, idOf]
    · cases b <;> simp [attachId, isStartEv, idOf]
  · have hz : ((traceCore f).map (attachId id)).countP isStartEv = 0 := by
      rw [List.countP_eq_zero]
      intro e he
      obtain ⟨x, _, rfl⟩ := List.mem_map.mp he
      rcases x with o | p | b
      · cases o <;> simp [attachId, isStartEv]
      · simp [attachId, isStartEv]
      · cases b <;> simp [attachId, isStartEv]
    rw [streamReplyTrace, List.countP_cons, hz]
    simp [isStartEv]

theorem lookup_val_ne_nil (l : List (Txt × List Txt)) (hl : ∀ p ∈ l, p.2 ≠ []) :
    ∀ m v, l.lookup m = some v → v ≠ [] := by
  induction l with
  | nil => intro m v hv; simp [List.lookup] at hv
  | cons p rest ih =>
    intro m v hv
    obtain ⟨k0, v0⟩ := p
    rw [List.lookup] at hv
    cases hk : (m == k0) with
    | true =>
      rw [hk] at hv
      simp only [Option.some.injEq] at hv
      subst hv
      exact hl (k0, v0) (by simp)
    | false =>
      rw [hk] at hv
      exact ih (fun q hq => hl q (by simp [hq])) m v hv

/-- C7: an unrecognized model name resolves to the singleton candidate
list containing itself, tried under both shapes (two pairs), and the
attempt sequence is never empty for any model name. -/
theorem claim_C7 :
    (∀ x : Txt, FAMILY_ALIASES.lookup x = none →
      familiesFor x = [x] ∧
      (attemptPairs x = [(x, Shape.conv), (x, Shape.chat)] ∨
       attemptPairs x = [(x, Shape.chat), (x, Shape.conv)]))
    ∧ (∀ m : Txt, attemptPairs m ≠ []) := by
  constructor
  · intro x hx
    have hf : familiesFor x = [x] := by rw [familiesFor, hx]; rfl
    refine ⟨hf, ?_⟩
    rw [attemptPairs, hf]
    cases hp : preferChat x with
    | false => left; simp [shapeOrder, hp]
    | true => right; simp [shapeOrder, hp]
  · intro m
    have hfam : familiesFor m ≠ [] := by
      rw [familiesFor]
      cases hl : FAMILY_ALIASES.lookup m with
      | none => simp
      | some v =>
        simp only [Option.getD_some]
        exact lookup_val_ne_nil FAMILY_ALIASES (by decide) m v hl
    rw [attemptPairs]
    cases hc : familiesFor m with
    | nil => exact absurd hc hfam
    | cons c cr =>
      have hso : (shapeOrder c).map (fun sh => (c, sh)) ≠ [] := by
        rw [shapeOrder]
        split <;> simp
      rw [List.flatMap_cons]
      intro heq
      exact hso (List.append_eq_nil.mp heq).1

/-- C6: for every candidate the resolver produces, the "completions"
shape is attempted before the "conversation" shape exactly when the
candidate is in the shape-preference set (exact, case-sensitive
membership), and in the reverse order otherwise. -/
theorem claim_C6 :
    (∀ (m c : Txt), c ∈ familiesFor m →
      (preferChat c = true →
        ∃ i j : Nat, i < j ∧ (attemptPairs m)[i]? = some (c, Shape.chat) ∧
          (attemptPairs m)[j]? = some (c, Shape.conv)) ∧
      (preferChat c = false →
        ∃ i j : Nat, i < j ∧ (attemptPairs m)[i]? = some (c, Shape.conv) ∧
          (attemptPairs m)[j]? = some (c, Shape.chat)))
    ∧ preferChat (s2n "mistral-small") = true
    ∧ preferChat (s2n "MISTRAL-SMALL") = false := by
  refine ⟨?_, by decide, by decide⟩
  intro m c hc
  obtain ⟨l1, l2, hsplit⟩ := List.append_of_mem hc
  have hpairs : attemptPairs m =
      l1.flatMap (fun c2 => (shapeOrder c2).map (fun sh => (c2, sh))) ++
      ((shapeOrder c).map (fun sh => (c, sh)) ++
        l2.flatMap (fun c2 => (shapeOrder c2).map (fun sh => (c2, sh)))) := by
    rw [attemptPairs, hsplit, List.flatMap_append, List.flatMap_cons]
  constructor
  · intro hp
    refine ⟨(l1.flatMap (fun c2 => (shapeOrder c2).map (fun sh => (c2, sh)))).length,
      (l1.flatMap (fun c2 => (shapeOrder c2).map (fun sh => (c2, sh)))).length + 1,
      by omega, ?_, ?_⟩
    · rw [hpairs, List.getElem?_append_right (Nat.le_refl _), Nat.sub_self]
      simp [shapeOrder, hp]
    · rw [hpairs, List.getElem?_append_right (Nat.le_succ_of_le (Nat.le_refl _))]
      have hidx : ∀ n : Nat, n.succ - n = 1 := fun n => by omega
      rw [hidx]
      simp [shapeOrder, hp]
  · intro hp
    refine ⟨(l1.flatMap (fun c2 => (shapeOrder c2).map (fun sh => (c2, sh)))).length,
      (l1.flatMap (fun c2 => (shapeOrder c2).map (fun sh => (c2, sh)))).length + 1,
      by omega, ?_, ?_⟩
    · rw [hpairs, List.getElem?_append_right (Nat.le_refl _), Nat.sub_self]
      simp [shapeOrder, hp]
    · rw [hpairs, List.getElem?_append_right (Nat.le_succ_of_le (Nat.le_refl _))]
      have hidx : ∀ n : Nat, n.succ - n = 1 := fun n => by omega
      rw [hidx]
      simp [shapeOrder, hp]

/-- C6 witness: for the in-set candidate "mistral-small-latest" the
completions shape precedes the conversation shape. -/
theorem claim_C6_witness :
    ∃ i j : Nat, i < j ∧
      (attemptPairs (s2n "mistral-small-latest"))[i]? =
        some (s2n "mistral-small-latest", Shape.chat) ∧
      (attemptPairs (s2n "mistral-small-latest"))[j]? =
        some (s2n "mistral-small-latest", Shape.conv) :=
  (claim_C6.1 (s2n "mistral-small-latest") (s2n "mistral-small-latest")
    (by decide)).1 (by decide)

/-- C7 witness: the unknown model name "gpt-4" resolves to itself under
both shape orderings. -/
theorem claim_C7_witness :
    familiesFor (s2n "gpt-4") = [s2n "gpt-4"] ∧
    (attemptPairs (s2n "gpt-4") = [(s2n "gpt-4", Shape.conv), (s2n "gpt-4", Shape.chat)] ∨
     attemptPairs (s2n "gpt-4") = [(s2n "gpt-4", Shape.chat), (s2n "gpt-4", Shape.conv)]) :=
  claim_C7.1 (s2n "gpt-4") (by decide)

/-- Ways an attempt can fail: non-2xx status, missing event-stream
content type, missing body, or a transport exception. -/
def upstreamFails : Upstream → Prop
  | .thrown _ => True
  | .resp st ct _ body => respOk st = false ∨ ctStreamable ct = false ∨ body = none

theorem callShape_win (sh : Shape) (st : Nat) (ct : Option Txt) (txt : Option Txt) (b : Nat)
    (hok : respOk st = true) (hct : ctStreamable ct = true) :
    callShape sh (.resp st ct txt (some b)) = .ret true true (some b) [] := by
  simp [callShape, hok, hct]

theorem callShape_fail (sh : Shape) (u : Upstream) (h : upstreamFails u) :
    isWin (callShape sh u) = false := by
  cases u with
  | thrown m => rfl
  | resp st ct txt body =>
    rcases h with h | h | h
    · simp [callShape, h, isWin]
    · by_cases hok : respOk st = false
      · simp [callShape, hok, isWin]
      · simp [callShape, hok, h, isWin]
    · subst h
      by_cases hok : respOk st = false
      · simp [callShape, hok, isWin]
      · by_cases hct : ctStreamable ct = false
        · simp [callShape, hok, hct, isWin]
        · simp [callShape, hok, hct, isWin]

/-- A failing attempt steps the loop to the next pair with some updated
`lastErrorText`. -/
theorem dispatchGo_fail_step (us : Nat → Upstream) (p : Txt × Shape)
    (rest : List (Txt × Shape)) (i : Nat) (last : Txt)
    (h : isWin (callShape p.2 (us i)) = false) :
    ∃ last2, dispatchGo us (p :: rest) i last = dispatchGo us rest (i + 1) last2 := by
  rw [dispatchGo]
  cases hc : callShape p.2 (us i) with
  | exn m => exact ⟨m, rfl⟩
  | ret ok streamable body err =>
    cases ok with
    | false => exact ⟨if err ≠ [] then err else last, rfl⟩
    | true =>
      cases streamable with
      | false => exact ⟨if err ≠ [] then err else last, rfl⟩
      | true =>
        cases body with
        | none => exact ⟨if err ≠ [] then err else last, rfl⟩
        | some b =>
          rw [hc] at h
          simp [isWin] at h

theorem dispatchGo_relay (N : Nat) :
    ∀ (ps : List (Txt × Shape)) (us : Nat → Upstream) (i : Nat) (last : Txt)
      (st : Nat) (ct : Option Txt) (txt : Option Txt) (b : Nat),
      0 < N → N ≤ ps.length →
      (∀ k, k + 1 < N → upstreamFails (us (i + k))) →
      us (i + (N - 1)) = .resp st ct txt (some b) →
      respOk st = true → ctStreamable ct = true →
      dispatchGo us ps i last = .relay (i + (N - 1)) b := by
  induction N with
  | zero => intro ps us i last st ct txt b h0; exact absurd h0 (by omega)
  | succ n ih =>
    intro ps us i last st ct txt b h0 hlen hfail hwin hok hct
    cases ps with
    | nil => simp at hlen
    | cons p rest =>
      cases n with
      | zero =>
        have hui : us i = .resp st ct txt (some b) := by simpa using hwin
        rw [dispatchGo, hui, callShape_win p.2 st ct txt b hok hct]
        simp
      | succ nn =>
        have hf0 : upstreamFails (us i) := by simpa using hfail 0 (by omega)
        obtain ⟨last2, hstep⟩ :=
          dispatchGo_fail_step us p rest i last (callShape_fail p.2 (us i) hf0)
        rw [hstep]
        have harg : i + 1 + (nn + 1 - 1) = i + (nn + 1 + 1 - 1) := by omega
        have := ih rest us (i + 1) last2 st ct txt b (by omega)
          (by simpa using Nat.lt_of_succ_le hlen)
          (fun k hk => by
            have := hfail (k + 1) (by omega)
            have heq : i + (k + 1) = i + 1 + k := by omega
            rwa [heq] at this)
          (by rwa [harg])
          hok hct
        rw [this, ← harg]

/-- C3 (amended): first streamable success wins with early exit — if
attempts 1..N-1 fail (non-2xx, 2xx without event-stream content type,
missing body, or a transport exception) and attempt N returns 2xx with
an event-stream content type and a non-null body, the dispatcher
relays attempt N's body, and the result is independent of anything
after attempt N (no further request is issued). The body condition is
necessary: a 2xx + event-stream response with a null body is one more
failure and the loop continues (see the counterexample). -/
theorem claim_C3 (m : Txt) (us : Nat → Upstream) (N : Nat)
    (st : Nat) (ct : Option Txt) (txt : Option Txt) (b : Nat)
    (h0 : 0 < N) (hlen : N ≤ (attemptPairs m).length)
    (hfail : ∀ k, k + 1 < N → upstreamFails (us k))
    (hwin : us (N - 1) = .resp st ct txt (some b))
    (hok : respOk st = true) (hct : ctStreamable ct = true) :
    dispatch m us = .relay (N - 1) b ∧
    (∀ us2 : Nat → Upstream, (∀ i, i < N → us2 i = us i) →
      dispatch m us2 = .relay (N - 1) b) := by
  have h1 : ∀ us3 : Nat → Upstream,
      (∀ k, k + 1 < N → upstreamFails (us3 k)) →
      us3 (N - 1) = .resp st ct txt (some b) →
      dispatch m us3 = .relay (N - 1) b := by
    intro us3 hf3 hw3
    have := dispatchGo_relay N (attemptPairs m) us3 0 [] st ct txt b h0 hlen
      (fun k hk => by rw [Nat.zero_add]; exact hf3 k hk)
      (by rw [Nat.zero_add]; exact hw3) hok hct
    rw [dispatch, this, Nat.zero_add]
  refine ⟨h1 us hfail hwin, ?_⟩
  intro us2 hag
  exact h1 us2
    (fun k hk => by rw [hag k (by omega)]; exact hfail k hk)
    (by rw [hag (N - 1) (by omega)]; exact hwin)

/-- Concrete upstream behaviour for the C3 witness: attempt 1 returns a
503, attempt 2 returns a streamable 200 with body handle 7. -/
def usC3w : Nat → Upstream := fun i =>
  if i = 0 then .resp 503 none (some []) none
  else .resp 200 (some (s2n "text/event-stream; charset=utf-8")) none (some 7)

/-- C3 witness: with attempt 1 failing and attempt 2 streamable, the
dispatcher relays attempt 2's body. -/
theorem claim_C3_witness : dispatch (s2n "m1") usC3w = .relay 1 7 :=
  (claim_C3 (s2n "m1") usC3w 2 200 (some (s2n "text/event-stream; charset=utf-8")) none 7
    (by omega) (by decide)
    (fun k hk => by
      have hk0 : k = 0 := by omega
      subst hk0
      exact Or.inl rfl)
    rfl rfl rfl).1

/-- Concrete upstream behaviour falsifying C3 as stated: attempt 1 is a
500 ("boom"); attempt 2 is a 204 with an event-stream content type but
a null body (a 2xx + event-stream response); attempt 3 is a streamable
200 with body handle 9. -/
def usC3c : Nat → Upstream := fun i =>
  if i = 0 then .resp 500 none (some (s2n "boom")) none
  else if i = 1 then .resp 204 (some (s2n "text/event-stream")) (some []) none
  else .resp 200 (some (s2n "text/event-stream")) none (some 9)

/-- Like `usC3c` on attempts 1 and 2, but every later attempt fails
with error body "late". -/
def usC3c2 : Nat → Upstream := fun i =>
  if i = 0 then .resp 500 none (some (s2n "boom")) none
  else if i = 1 then .resp 204 (some (s2n "text/event-stream")) (some []) none
  else .resp 500 none (some (s2n "late")) none

/-- C3 counterexample: for "mistral-small-latest" (4 attempt pairs),
attempt 1 fails with a non-2xx status and attempt 2 (N = 2) returns a
2xx status with an event-stream content type — yet the dispatcher does
not relay attempt 2 (its body is null): it relays attempt 3's body
instead, and with the same first two attempts but failing later
attempts it instead reports their error — so requests after attempt N
are issued, and the final result depends on them. -/
theorem claim_C3_counterexample :
    respOk 500 = false ∧
    usC3c 1 = .resp 204 (some (s2n "text/event-stream")) (some []) none ∧
    respOk 204 = true ∧
    ctStreamable (some (s2n "text/event-stream")) = true ∧
    usC3c2 0 = usC3c 0 ∧
    usC3c2 1 = usC3c 1 ∧
    dispatch (s2n "mistral-small-latest") usC3c = .relay 2 9 ∧
    dispatch (s2n "mistral-small-latest") usC3c2 = .failure (s2n "late") ∧
    DispatchResult.relay 2 9 ≠ DispatchResult.failure (s2n "late") :=
  ⟨by decide, rfl, by decide, by decide, rfl, rfl, by decide, by decide, by decide⟩

theorem dispatchGo_allfail :
    ∀ (qs : List (Txt × Shape)) (plast : Txt × Shape) (us : Nat → Upstream) (i : Nat) (last : Txt),
      (∀ k p, (qs ++ [plast])[k]? = some p → isWin (callShape p.2 (us (i + k))) = false) →
      recordedText (callShape plast.2 (us (i + qs.length))) ≠ [] →
      dispatchGo us (qs ++ [plast]) i last =
        .failure (recordedText (callShape plast.2 (us (i + qs.length)))) := by
  intro qs
  induction qs with
  | nil =>
    intro plast us i last hfail hne
    simp only [List.nil_append, List.length_nil, Nat.add_zero] at hne ⊢
    have hnw : isWin (callShape plast.2 (us i)) = false := by
      have := hfail 0 plast (by simp)
      rwa [Nat.add_zero] at this
    rw [dispatchGo]
    cases hc : callShape plast.2 (us i) with
    | exn m2 =>
      rw [hc] at hne
      simp only [recordedText] at hne
      show dispatchGo us [] (i + 1) m2 = _
      rw [dispatchGo, if_pos hne]
      simp [recordedText]
    | ret ok streamable body err =>
      rw [hc] at hne
      simp only [recordedText] at hne
      cases ok with
      | false =>
        show dispatchGo us [] (i + 1) (if err ≠ [] then err else last) = _
        rw [dispatchGo]
        simp [hne, recordedText]
      | true =>
        cases streamable with
        | false =>
          show dispatchGo us [] (i + 1) (if err ≠ [] then err else last) = _
          rw [dispatchGo]
          simp [hne, recordedText]
        | true =>
          cases body with
          | none =>
            show dispatchGo us [] (i + 1) (if err ≠ [] then err else last) = _
            rw [dispatchGo]
            simp [hne, recordedText]
          | some b =>
            rw [hc] at hnw
            simp [isWin] at hnw
  | cons q qs ih =>
    intro plast us i last hfail hne
    have hq : isWin (callShape q.2 (us i)) = false := by
      have := hfail 0 q (by simp)
      rwa [Nat.add_zero] at this
    rw [List.cons_append]
    obtain ⟨last2, hstep⟩ := dispatchGo_fail_step us q (qs ++ [plast]) i last hq
    rw [hstep]
    have hlen : i + 1 + qs.length = i + (q :: qs).length := by
      simp [List.length_cons]
      omega
    have := ih plast us (i + 1) last2
      (fun k p hk => by
        have hk2 : ((q :: qs) ++ [plast])[k + 1]? = some p := by
          rw [List.cons_append, List.getElem?_cons_succ]
          exact hk
        have := hfail (k + 1) p hk2
        have heq : i + (k + 1) = i + 1 + k := by omega
        rwa [heq] at this)
      (by rwa [hlen])
    rw [this, hlen]

/-- C2 (amended): when every (candidate, shape) attempt fails, the
dispatcher responds with a single aggregated error; a failed call
result overwrites the recorded message only when its error text is
non-empty, a thrown exception overwrites unconditionally, and an empty
final text is replaced by a generic fallback. In particular, whenever
the last attempt records a non-empty error text, the aggregated message
equals exactly that last attempt's text. -/
theorem claim_C2 (m : Txt) (us : Nat → Upstream)
    (qs : List (Txt × Shape)) (plast : Txt × Shape)
    (hps : attemptPairs m = qs ++ [plast])
    (hfail : ∀ k p, (attemptPairs m)[k]? = some p → isWin (callShape p.2 (us k)) = false)
    (hne : recordedText (callShape plast.2 (us qs.length)) ≠ []) :
    dispatch m us = .failure (recordedText (callShape plast.2 (us qs.length))) := by
  rw [dispatch, hps]
  have := dispatchGo_allfail qs plast us 0 []
    (fun k p hk => by
      rw [Nat.zero_add]
      exact hfail k p (by rwa [hps]))
    (by rwa [Nat.zero_add])
  rwa [Nat.zero_add] at this

/-- Concrete upstream behaviour for the C2 witness: a 500 with body
"boom", then a 404 with body "gone"; both attempts fail with non-empty
recorded texts. -/
def usC2w : Nat → Upstream := fun i =>
  if i = 0 then .resp 500 none (some (s2n "boom")) none
  else .resp 404 none (some (s2n "gone")) none

/-- C2 witness: when both attempts fail with non-empty error texts, the
aggregated message is the last attempt's text. -/
theorem claim_C2_witness : dispatch (s2n "m2") usC2w = .failure (s2n "gone") := by
  have h := claim_C2 (s2n "m2") usC2w [(s2n "m2", Shape.conv)] (s2n "m2", Shape.chat)
    (by decide)
    (fun k p hk => by
      match k with
      | 0 =>
        rw [show (attemptPairs (s2n "m2"))[0]? = some (s2n "m2", Shape.conv) from rfl] at hk
        obtain rfl := Option.some_inj.mp hk.symm
        decide
      | 1 =>
        rw [show (attemptPairs (s2n "m2"))[1]? = some (s2n "m2", Shape.chat) from rfl] at hk
        obtain rfl := Option.some_inj.mp hk.symm
        decide
      | k + 2 =>
        rw [show (attemptPairs (s2n "m2"))[k + 2]? = none from rfl] at hk
        exact absurd hk (by simp))
    (by decide)
  rw [h]
  decide

/-- Concrete upstream behaviour falsifying C2 as stated: attempt 1 is a
500 with error body "boom"; attempt 2 is a 204 with an event-stream
content type but no body (a failing attempt whose recorded error text
is empty). -/
def usC2c : Nat → Upstream := fun i =>
  if i = 0 then .resp 500 none (some (s2n "boom")) none
  else .resp 204 (some (s2n "text/event-stream")) (some []) none

/-- C2 counterexample: both attempts of the sequence for model "m3"
fail, yet the aggregated error message equals attempt 1's error text
"boom", not attempt 2's (empty) error text — last-write-wins does not
hold when the last attempt records an empty text. -/
theorem claim_C2_counterexample :
    isWin (callShape Shape.conv (usC2c 0)) = false ∧
    isWin (callShape Shape.chat (usC2c 1)) = false ∧
    recordedText (callShape Shape.conv (usC2c 0)) = s2n "boom" ∧
    recordedText (callShape Shape.chat (usC2c 1)) = [] ∧
    dispatch (s2n "m3") usC2c = .failure (s2n "boom") ∧
    DispatchResult.failure (s2n "boom") ≠
      .failure (recordedText (callShape Shape.chat (usC2c 1))) := by
  refine ⟨by decide, by decide, by decide, by decide, by decide, by decide⟩

/-- A "conversation"-shape delta frame carrying content "ab". -/
def c1DeltaFrame : Txt :=
  s2n "data: \x7b\"type\":\"message.output.delta\",\"content\":\"ab\"\x7d\n\n"

/-- A "conversation"-shape terminal frame. -/
def c1DoneFrame : Txt :=
  s2n "data: \x7b\"type\":\"conversation.response.done\"\x7d\n\n"

/-- A second delta frame carrying content "cd". -/
def c1Delta2Frame : Txt :=
  s2n "data: \x7b\"type\":\"message.output.delta\",\"content\":\"cd\"\x7d\n\n"

/-- C1 counterexample: a delta frame "ab" followed by a terminal frame
does not yield exactly one completion signal — a second completion
fires at end of stream; and a delta frame arriving after the terminal
frame is still processed, emitting its token after the completion
signal. -/
theorem claim_C1_counterexample :
    streamOutputs [utf8Encode (c1DeltaFrame ++ c1DoneFrame)] =
      [.token (s2n "ab"), .done, .done] ∧
    streamOutputs [utf8Encode (c1DeltaFrame ++ c1DoneFrame)] ≠
      [.token (s2n "ab"), .done] ∧
    streamOutputs [utf8Encode (c1DeltaFrame ++ c1DoneFrame ++ c1Delta2Frame)] =
      [.token (s2n "ab"), .done, .token (s2n "cd"), .done] :=
  ⟨by decide, by decide, by decide⟩

/-- C1 (amended): a frame carrying the "conversation"-shape terminal
marker signals stream completion but does not stop the framer — later
frames are still processed, and end of stream emits a further
completion signal; the delta "ab" + terminal scenario therefore yields
token "ab", one completion signal, then a second completion signal at
end of stream. -/
theorem claim_C1 :
    (∀ evt : JVal,
      strEq (getF evt (s2n "type")) (s2n "conversation.response.done") = true →
      handleEvent evt = ([.done], false)) ∧
    streamOutputs [utf8Encode (c1DeltaFrame ++ c1DoneFrame)] =
      [.token (s2n "ab"), .done, .done] := by
  refine ⟨?_, by decide⟩
  intro evt h
  have hty : getF evt (s2n "type") = .jstr (s2n "conversation.response.done") := by
    cases hv : getF evt (s2n "type") <;> rw [hv] at h <;> simp [strEq] at h
    rw [h]
  have hne : strEq (getF evt (s2n "type")) (s2n "message.output.delta") = false := by
    rw [hty]
    decide
  rw [handleEvent, hne]
  simp [h]

/-- C1 witness: the concrete terminal event signals completion without
stopping the frame loop. -/
theorem claim_C1_witness :
    handleEvent (.jobj [(s2n "type", .jstr (s2n "conversation.response.done"))]) =
      ([.done], false) :=
  claim_C1.1 (.jobj [(s2n "type", .jstr (s2n "conversation.response.done"))]) (by decide)

/-- C8: for an event whose earlier classifications do not fire and whose
`choices` list is non-empty, the framer takes the first choice and
emits the extracted delta/message content as one token (none when the
extracted text is empty); concretely, `content: "x"` yields token "x",
a `[\x7btext: "x"\x7d, \x7btext: "y"\x7d]` segment list yields the single
token "xy", and empty content emits no token. -/
theorem claim_C8 :
    (∀ (evt choice : JVal) (rest : List JVal),
      strEq (getF evt (s2n "type")) (s2n "message.output.delta") = false →
      strEq (getF evt (s2n "type")) (s2n "conversation.response.done") = false →
      truthy (getF evt (s2n "error")) = false →
      getF evt (s2n "choices") = .jarr (choice :: rest) →
      handleEvent evt =
        (if extractTextFromDeltaContent (getF (chooseDelta choice) (s2n "content")) ≠ []
         then [.token (extractTextFromDeltaContent (getF (chooseDelta choice) (s2n "content")))]
         else [], false)) ∧
    streamOutputs
        [utf8Encode (s2n "data: \x7b\"choices\":[\x7b\"delta\":\x7b\"content\":\"x\"\x7d\x7d]\x7d\n\n")] =
      [.token (s2n "x"), .done] ∧
    streamOutputs
        [utf8Encode
          (s2n "data: \x7b\"choices\":[\x7b\"delta\":\x7b\"content\":[\x7b\"text\":\"x\"\x7d,\x7b\"text\":\"y\"\x7d]\x7d\x7d]\x7d\n\n")] =
      [.token (s2n "xy"), .done] ∧
    streamOutputs
        [utf8Encode (s2n "data: \x7b\"choices\":[\x7b\"delta\":\x7b\"content\":\"\"\x7d\x7d]\x7d\n\n")] =
      [.done] := by
  refine ⟨?_, by decide, by decide, by decide⟩
  intro evt choice rest h1 h2 h3 h4
  rw [handleEvent, h1, h2]
  simp only [Bool.false_eq_true, if_false, h3, h4]

/-- C8 witness: the concrete one-choice event with delta content "x"
emits exactly the token "x". -/
theorem claim_C8_witness :
    handleEvent
        (.jobj [(s2n "choices",
          .jarr [.jobj [(s2n "delta", .jobj [(s2n "content", .jstr (s2n "x"))])]])]) =
      ([.token (s2n "x")], false) := by
  have h := claim_C8.1
    (.jobj [(s2n "choices",
      .jarr [.jobj [(s2n "delta", .jobj [(s2n "content", .jstr (s2n "x"))])]])])
    (.jobj [(s2n "delta", .jobj [(s2n "content", .jstr (s2n "x"))])]) []
    (by decide) (by decide) (by decide) rfl
  rw [h]
  decide

end LeMistral
